import Mathlib

/-!
# Shallow embedding of the zellij-nucleo fuzzy picker (src/src/lib.rs)

This file models the search-and-selection engine of the `zellij-nucleo`
crate: the data model (`Entry`, `SearchResult`, `Picker`), the ranking
comparator (`Ord for SearchResult`), re-ranking (`Picker::search`), the
two-mode key dispatch (`handle_key` and its global/normal/search
handlers), selection movement (`down`/`up`), list updates
(`clear`/`extend`), configuration loading (`Picker::load`) and the
state-relevant part of rendering (`Picker::render`).

The external fuzzy matcher (the `nucleo-matcher` crate) is consumed as an
opaque scoring oracle, exactly as the design treats it: a deterministic
function from (query, case policy, path flag, candidate string) to an
optional score plus matched character positions. Rust machine integers
(`usize`, `u32`) are modelled as `Nat`; operations that can panic in Rust
(unchecked indexing, division by zero) are modelled with `Except`, the
error carrying the panic message.
-/

namespace ZellijNucleo

/-- `Entry<T>` from the source: a displayable/searchable label plus opaque
caller payload. -/
structure Entry (T : Type) where
  string : String
  data : T
  deriving Repr, DecidableEq

/-- `Response<T>` from the source: result of an interaction step. -/
inductive Response (T : Type) where
  | Select : Entry T → Response T
  | Cancel : Response T
  deriving Repr, DecidableEq

/-- `InputMode` from the source. -/
inductive InputMode where
  | Normal
  | Search
  deriving Repr, DecidableEq

/-- `nucleo_matcher::pattern::CaseMatching` (external crate), per spec §6:
values `respect`, `ignore`, `smart`; default `smart`. -/
inductive CaseMatching where
  | Respect
  | Ignore
  | Smart
  deriving Repr, DecidableEq

/-- `SearchResult<T>` from the source: a matching entry with its score and
its set of matched character positions (`indices : Vec<u32>`). -/
structure SearchResult (T : Type) where
  entry : Entry T
  score : Nat
  indices : List Nat
  deriving Repr, DecidableEq

/-- Rust `Ord for Option<u32>`: `None` sorts before any `Some`;
two `Some`s compare by value (used via `self.indices.first().cmp(...)`). -/
def cmpOptNat : Option Nat → Option Nat → Ordering
  | none, none => .eq
  | none, some _ => .lt
  | some _, none => .gt
  | some a, some b => compare a b

/-- Rust `Ord for String`: lexicographic. Byte-wise comparison of UTF-8
agrees with code-point-wise comparison, so we compare the char lists. -/
def charListCmp : List Char → List Char → Ordering
  | [], [] => .eq
  | [], _ :: _ => .lt
  | _ :: _, [] => .gt
  | a :: as, b :: bs => (compare a.toNat b.toNat).then (charListCmp as bs)

def strCmp (a b : String) : Ordering :=
  charListCmp a.data b.data

/-- `impl Ord for SearchResult` (src/src/lib.rs:543-551):
score descending (`.reverse()`), then first matched index ascending,
then entry string lexicographically ascending. -/
def SearchResult.cmp {T : Type} (a b : SearchResult T) : Ordering :=
  (((compare a.score b.score).swap).then
      (cmpOptNat a.indices.head? b.indices.head?)).then
    (strCmp a.entry.string b.entry.string)

/-- `Vec::sort` is a stable sort by `Ord`; `a` may precede `b` whenever
`cmp a b ≠ Greater`. -/
def srLe {T : Type} (a b : SearchResult T) : Bool :=
  SearchResult.cmp a b ≠ Ordering.gt

/-- Stable insert for the stable sort modelling `Vec::sort`. -/
def insertSorted {T : Type} (a : SearchResult T) :
    List (SearchResult T) → List (SearchResult T)
  | [] => [a]
  | b :: bs => if srLe a b then a :: b :: bs else b :: insertSorted a bs

/-- `self.search_results.sort()` (src/src/lib.rs:396): a stable sort by the
`SearchResult` comparator. Any two stable sorts under a total preorder
produce the same output, so this stable insertion sort is observably equal
to Rust's stable `Vec::sort`. -/
def sortResults {T : Type} (l : List (SearchResult T)) :
    List (SearchResult T) :=
  l.foldr insertSorted []

/-- `iter().enumerate().find_map(|(idx, x)| pred(x).then_some(idx))`
(src/src/lib.rs:399-406): index of the first element satisfying the
predicate. -/
def findFirstIdx {α : Type} (pred : α → Bool) : List α → Option Nat
  | [] => none
  | x :: xs =>
    if pred x then some 0 else (findFirstIdx pred xs).map (· + 1)

/-- The bare keys the picker dispatches on (`zellij_tile` `BareKey`).
Every bare key not named in any match arm falls into the final wildcard
arm, which `other` stands for. -/
inductive BareKey where
  | Char : Char → BareKey
  | Tab
  | Down
  | Up
  | Esc
  | Enter
  | Backspace
  | other
  deriving Repr, DecidableEq

/-- Modifier set of a key event (`zellij_tile` `KeyModifier` set). -/
structure Modifiers where
  ctrl : Bool
  alt : Bool
  shift : Bool
  super : Bool
  deriving Repr, DecidableEq

def Modifiers.empty : Modifiers :=
  { ctrl := false, alt := false, shift := false, super := false }

/-- `zellij_tile` `KeyWithModifier`. -/
structure KeyWithModifier where
  bare_key : BareKey
  modifiers : Modifiers
  deriving Repr, DecidableEq

/-- `KeyWithModifier::has_no_modifiers`: the modifier set is empty. -/
def KeyWithModifier.has_no_modifiers (k : KeyWithModifier) : Bool :=
  !k.modifiers.ctrl && !k.modifiers.alt && !k.modifiers.shift &&
    !k.modifiers.super

/-- `key.has_modifiers(&[KeyModifier::Ctrl])`: the modifier set contains
Ctrl (containment, not equality, per `zellij_tile`). -/
def KeyWithModifier.hasCtrl (k : KeyWithModifier) : Bool :=
  k.modifiers.ctrl

/-- `key.has_modifiers(&[KeyModifier::Shift])`: the modifier set contains
Shift. -/
def KeyWithModifier.hasShift (k : KeyWithModifier) : Bool :=
  k.modifiers.shift

/-- The scoring oracle (spec §6): the external `nucleo-matcher` crate,
out of scope of this repository, consumed as a deterministic function.
`oracle query case_policy path_bonus_flag candidate` captures
`pattern.reparse(query, case_matching, Normalization::Smart)` followed by
`pattern.indices(candidate, matcher, indices)` with the matcher configured
for path matching iff the flag is set; it returns `none` for "no match",
or the score and the matched character positions. -/
def Oracle : Type :=
  String → CaseMatching → Bool → String → Option (Nat × List Nat)

/-- `Picker<T>` state (src/src/lib.rs:112-123). The `pattern`/`matcher`
fields exist only to drive the external matcher; their picker-visible
content is `case_matching` and the match-paths flag, which we keep. -/
structure Picker (T : Type) where
  query : String
  all_entries : List (Entry T)
  search_results : List (SearchResult T)
  selected : Nat
  input_mode : InputMode
  needs_redraw : Bool
  case_matching : CaseMatching
  match_paths : Bool
  deriving Repr, DecidableEq

/-- `Picker::default()` (derived). `CaseMatching::default()` is `Smart` in
`nucleo-matcher` (spec §6: default `smart`); `Matcher::default()` uses the
non-path config (spec §6: default `false`); `InputMode::default()` is
`Normal`. -/
def Picker.default (T : Type) : Picker T :=
  { query := ""
    all_entries := []
    search_results := []
    selected := 0
    input_mode := .Normal
    needs_redraw := false
    case_matching := .Smart
    match_paths := false }

variable {T : Type}

/-- `Picker::select` (src/src/lib.rs:308-311). -/
def Picker.select (p : Picker T) (idx : Nat) : Picker T :=
  { p with selected := idx, needs_redraw := true }

/-- `Picker::down` (src/src/lib.rs:517-524). -/
def Picker.down (p : Picker T) : Picker T :=
  if p.search_results.isEmpty then p
  else
    { p with
      selected := (p.search_results.length + p.selected + 1) %
        p.search_results.length
      needs_redraw := true }

/-- `Picker::up` (src/src/lib.rs:526-533). `len + selected ≥ 1` when the
list is non-empty, so the `usize` subtraction cannot underflow and agrees
with truncated `Nat` subtraction. -/
def Picker.up (p : Picker T) : Picker T :=
  if p.search_results.isEmpty then p
  else
    { p with
      selected := (p.search_results.length + p.selected - 1) %
        p.search_results.length
      needs_redraw := true }

/-- `Picker::search` (src/src/lib.rs:366-411): remember the entry at the
current selected index (if valid), re-rank `all_entries` under the current
query via the oracle, sort, then reconcile the selection: first result
with the remembered entry's string, else `0`; if nothing was remembered,
`selected` is left untouched. Always flags a redraw. -/
def Picker.search (oracle : Oracle) (p : Picker T) : Picker T :=
  let prev_selected := (p.search_results[p.selected]?).map
    (fun sr => sr.entry)
  let results := p.all_entries.filterMap (fun e =>
    (oracle p.query p.case_matching p.match_paths e.string).map
      (fun si => { entry := e, score := si.1, indices := si.2 }))
  let sorted := sortResults results
  let sel :=
    match prev_selected with
    | some prev =>
        (findFirstIdx (fun sr => sr.entry.string == prev.string)
          sorted).getD 0
    | none => p.selected
  { p with search_results := sorted, selected := sel, needs_redraw := true }

/-- `Picker::clear` (src/src/lib.rs:314-317). -/
def Picker.clear (oracle : Oracle) (p : Picker T) : Picker T :=
  Picker.search oracle { p with all_entries := [] }

/-- `Picker::extend` (src/src/lib.rs:320-323). -/
def Picker.extend (oracle : Oracle) (p : Picker T) (new : List (Entry T)) :
    Picker T :=
  Picker.search oracle { p with all_entries := p.all_entries ++ new }

/-- `Picker::enter_search_mode` (src/src/lib.rs:344-346). -/
def Picker.enter_search_mode (p : Picker T) : Picker T :=
  { p with input_mode := .Search }

/-- `Picker::enter_normal_mode` (src/src/lib.rs:350-352). -/
def Picker.enter_normal_mode (p : Picker T) : Picker T :=
  { p with input_mode := .Normal }

/-- `Picker::use_case_matching_respect` (src/src/lib.rs:326-328). -/
def Picker.use_case_matching_respect (p : Picker T) : Picker T :=
  { p with case_matching := .Respect }

/-- `Picker::use_case_matching_ignore` (src/src/lib.rs:331-333). -/
def Picker.use_case_matching_ignore (p : Picker T) : Picker T :=
  { p with case_matching := .Ignore }

/-- `Picker::use_case_matching_smart` (src/src/lib.rs:338-340). -/
def Picker.use_case_matching_smart (p : Picker T) : Picker T :=
  { p with case_matching := .Smart }

/-- `Picker::set_match_paths` (src/src/lib.rs:356-358). -/
def Picker.set_match_paths (p : Picker T) : Picker T :=
  { p with match_paths := true }

/-- `Picker::clear_match_paths` (src/src/lib.rs:362-364). -/
def Picker.clear_match_paths (p : Picker T) : Picker T :=
  { p with match_paths := false }

/-- `Picker::handle_normal_key` (src/src/lib.rs:421-454). Match arms in
source order; guards combine the pattern with the modifier test. -/
def Picker.handle_normal_key (p : Picker T) (key : KeyWithModifier) :
    Picker T × Option (Response T) :=
  match key.bare_key with
  | .Char c =>
    if c = 'j' ∧ key.has_no_modifiers then (p.down, none)
    else if c = 'k' ∧ key.has_no_modifiers then (p.up, none)
    else if ('1' ≤ c ∧ c ≤ '8') ∧ key.has_no_modifiers then
      (p, (p.search_results[c.toNat - Char.toNat '1']?).map
        (fun sr => .Select sr.entry))
    else if c = '9' ∧ key.has_no_modifiers then
      (p, p.search_results.getLast?.map (fun sr => .Select sr.entry))
    else if c = '/' ∧ key.has_no_modifiers then
      ({ p with input_mode := .Search, needs_redraw := true }, none)
    else (p, none)
  | _ => (p, none)

/-- `Picker::handle_search_key` (src/src/lib.rs:456-480). The unguarded
`Char(c)` arm comes first, so `Ctrl+u` only reaches its arm because the
first guard fails; after each query edit the handler re-runs `search` and
then forces `selected = 0`. `String::pop` on an empty string is a no-op,
matching `dropRight 1`. -/
def Picker.handle_search_key (oracle : Oracle) (p : Picker T)
    (key : KeyWithModifier) : Picker T × Option (Response T) :=
  match key.bare_key with
  | .Char c =>
    if key.has_no_modifiers then
      let p1 := Picker.search oracle { p with query := p.query.push c }
      ({ p1 with selected := 0 }, none)
    else if c = 'u' ∧ key.hasCtrl then
      let p1 := Picker.search oracle { p with query := "" }
      ({ p1 with selected := 0 }, none)
    else (p, none)
  | .Backspace =>
    if key.has_no_modifiers then
      let p1 := Picker.search oracle { p with query := p.query.dropRight 1 }
      ({ p1 with selected := 0 }, none)
    else (p, none)
  | _ => (p, none)

/-- `Picker::handle_global_key` (src/src/lib.rs:482-515). The Enter arm
indexes `search_results[selected]` unchecked: when the index is out of
range (in particular on an empty result list) Rust panics, modelled as
`Except.error`. -/
def Picker.handle_global_key (p : Picker T) (key : KeyWithModifier) :
    Except String (Picker T × Option (Response T)) :=
  match key.bare_key with
  | .Tab =>
    if key.has_no_modifiers then .ok (p.down, none)
    else if key.hasShift then .ok (p.up, none)
    else .ok (p, none)
  | .Down =>
    if key.has_no_modifiers then .ok (p.down, none) else .ok (p, none)
  | .Up =>
    if key.has_no_modifiers then .ok (p.up, none) else .ok (p, none)
  | .Esc =>
    if key.has_no_modifiers then
      .ok ({ p with input_mode := .Normal, needs_redraw := true }, none)
    else .ok (p, none)
  | .Char c =>
    if c = 'c' ∧ key.hasCtrl then .ok (p, some .Cancel) else .ok (p, none)
  | .Enter =>
    if key.has_no_modifiers then
      match p.search_results[p.selected]? with
      | some sr => .ok (p, some (.Select sr.entry))
      | none => .error "index out of bounds"
    else .ok (p, none)
  | _ => .ok (p, none)

/-- `Picker::handle_key` (src/src/lib.rs:413-419): global bindings first;
the mode-specific handler runs (on the state the global handler produced)
only when the global handler returned no response. -/
def Picker.handle_key (oracle : Oracle) (p : Picker T)
    (key : KeyWithModifier) :
    Except String (Picker T × Option (Response T)) :=
  match p.handle_global_key key with
  | .error e => .error e
  | .ok (p1, some r) => .ok (p1, some r)
  | .ok (p1, none) =>
    match p1.input_mode with
    | .Normal => .ok (p1.handle_normal_key key)
    | .Search => .ok (p1.handle_search_key oracle key)

/-- `Picker::render` (src/src/lib.rs:202-293), state-relevant part:
early return on `rows == 0` (the redraw flag is NOT cleared there);
otherwise page size is `rows - 1` and the visible window is
`skip((selected / page_size) * page_size).take(page_size)` with the
in-page selection `selected % page_size`. Rust `usize` division panics
when the divisor is zero, i.e. exactly when `rows == 1`, modelled as
`Except.error`. The textual frame written to the host display surface
(query line, truncation, highlighting; lines 217-291) is out of scope
(spec §1/§6); the only other state effect is clearing `needs_redraw`.
Returns the new state, the visible slice and the in-page selection. -/
def Picker.render (p : Picker T) (rows : Nat) (_cols : Nat) :
    Except String (Picker T × List (SearchResult T) × Nat) :=
  if rows = 0 then .ok (p, [], 0)
  else
    let visible_entry_count := rows - 1
    if visible_entry_count = 0 then .error "attempt to divide by zero"
    else
      let visible_entries :=
        (p.search_results.drop
          ((p.selected / visible_entry_count) * visible_entry_count)).take
          visible_entry_count
      let visible_selected := p.selected % visible_entry_count
      .ok ({ p with needs_redraw := false }, visible_entries,
        visible_selected)

/-- Configuration map (`BTreeMap<String, String>`): keys are unique, so an
association list looked up by first match models it. -/
abbrev Config : Type := List (String × String)

def Config.get (cfg : Config) (k : String) : Option String :=
  (cfg.find? (fun kv => kv.1 == k)).map (fun kv => kv.2)

/-- The `match configuration.get("nucleo_case_matching")` block of
`Picker::load` (src/src/lib.rs:134-154), taking the looked-up value. -/
def loadCaseMatching (v : Option String) (p : Picker T) :
    Except String (Picker T) :=
  match v with
  | some s =>
    if s = "respect" then .ok { p with case_matching := .Respect }
    else if s = "ignore" then .ok { p with case_matching := .Ignore }
    else if s = "smart" then .ok { p with case_matching := .Smart }
    else .error "unrecognized value for option nucleo_case_matching"
  | none => .ok p

/-- The `match configuration.get("nucleo_match_paths")` block of
`Picker::load` (src/src/lib.rs:156-167). -/
def loadMatchPaths (v : Option String) (p : Picker T) :
    Except String (Picker T) :=
  match v with
  | some s =>
    if s = "true" then .ok p.set_match_paths
    else if s = "false" then .ok p.clear_match_paths
    else .error "unrecognized value for option nucleo_match_paths"
  | none => .ok p

/-- The `match configuration.get("nucleo_start_in_search_mode")` block of
`Picker::load` (src/src/lib.rs:169-183). -/
def loadStartInSearchMode (v : Option String) (p : Picker T) :
    Except String (Picker T) :=
  match v with
  | some s =>
    if s = "true" then .ok p.enter_search_mode
    else if s = "false" then .ok p.enter_normal_mode
    else .error "unrecognized value for option nucleo_start_in_search_mode"
  | none => .ok p

/-- `Picker::load` (src/src/lib.rs:128-184): three recognized keys,
examined in order; a recognized key with a value outside its accepted set
panics (modelled as `Except.error`, which aborts everything after it, as a
Rust panic does); an absent key leaves the state alone; any other key is
never looked at. The `subscribe(PICKER_EVENTS)` call is a host-side
effect, out of scope. -/
def Picker.load (cfg : Config) (p : Picker T) : Except String (Picker T) :=
  match loadCaseMatching (cfg.get "nucleo_case_matching") p with
  | .error e => .error e
  | .ok p1 =>
    match loadMatchPaths (cfg.get "nucleo_match_paths") p1 with
    | .error e => .error e
    | .ok p2 =>
      loadStartInSearchMode (cfg.get "nucleo_start_in_search_mode") p2

/-- The accepted set of the `nucleo_case_matching` option. -/
def validCaseValue (s : String) : Bool :=
  s == "respect" || s == "ignore" || s == "smart"

/-- The accepted set of the two boolean options. -/
def validBoolValue (s : String) : Bool :=
  s == "true" || s == "false"

/-- A recognized configuration key is "bad" when it is present with a
value outside its accepted set. -/
def badValue (v : Option String) (valid : String → Bool) : Bool :=
  match v with
  | some s => !(valid s)
  | none => false

/-- Whether a load attempt is fatal. -/
def isErr {α : Type} (r : Except String α) : Bool :=
  match r with
  | .error _ => true
  | .ok _ => false

/-! ## Concrete fixtures for witnesses and counterexamples -/

/-- An oracle that matches every candidate with score 0 and no matched
positions (the behaviour of the real matcher on an empty pattern,
spec §4.1). -/
def oracleAll : Oracle := fun _ _ _ _ => some (0, [])

/-- An oracle that matches nothing. -/
def oracleNone : Oracle := fun _ _ _ _ => none

def entryA : Entry Unit := { string := "a", data := () }

def entryB : Entry Unit := { string := "b", data := () }

def entryC : Entry Unit := { string := "c", data := () }

def srOf (e : Entry Unit) : SearchResult Unit :=
  { entry := e, score := 0, indices := [] }

/-- A picker holding three ranked results `a`, `b`, `c` with `b`
selected. -/
def pickerABC : Picker Unit :=
  { Picker.default Unit with
    all_entries := [entryA, entryB, entryC]
    search_results := [srOf entryA, srOf entryB, srOf entryC]
    selected := 1 }

/-- `pickerABC` in Search mode. -/
def pickerABCSearch : Picker Unit :=
  { pickerABC with input_mode := .Search }

/-- `pickerABC` with the redraw flag already set. -/
def pickerABCRedraw : Picker Unit :=
  { pickerABC with needs_redraw := true }

/-- A picker whose `selected` was forced out of range via `select(5)`
while the result list is still empty. -/
def pickerOutOfRange : Picker Unit :=
  ({ Picker.default Unit with
    all_entries := [entryA, entryB] } : Picker Unit).select 5

def keyNoMod (b : BareKey) : KeyWithModifier :=
  { bare_key := b, modifiers := Modifiers.empty }

def keyCtrl (b : BareKey) : KeyWithModifier :=
  { bare_key := b, modifiers := { Modifiers.empty with ctrl := true } }

/-! ## Helper lemmas -/

theorem down_search_results (p : Picker T) :
    p.down.search_results = p.search_results := by
  unfold Picker.down
  split <;> rfl

theorem up_search_results (p : Picker T) :
    p.up.search_results = p.search_results := by
  unfold Picker.up
  split <;> rfl

theorem isEmpty_false_of_ne_nil {α : Type} {l : List α} (h : l ≠ []) :
    l.isEmpty = false := by
  cases l with
  | nil => exact absurd rfl h
  | cons x xs => rfl

theorem down_selected_of_ne (p : Picker T) (h : p.search_results ≠ []) :
    p.down.selected = (p.selected + 1) % p.search_results.length := by
  unfold Picker.down
  rw [if_neg (by simp [isEmpty_false_of_ne_nil h])]
  show (p.search_results.length + p.selected + 1) %
      p.search_results.length = _
  have he : p.search_results.length + p.selected + 1 =
      p.selected + 1 + p.search_results.length := by omega
  rw [he, Nat.add_mod_right]

theorem up_selected_of_ne (p : Picker T) (h : p.search_results ≠ []) :
    p.up.selected = (p.selected + (p.search_results.length - 1)) %
      p.search_results.length := by
  unfold Picker.up
  rw [if_neg (by simp [isEmpty_false_of_ne_nil h])]
  show (p.search_results.length + p.selected - 1) %
      p.search_results.length = _
  have hlen : 1 ≤ p.search_results.length := by
    cases hl : p.search_results with
    | nil => exact absurd hl h
    | cons x xs => simp [hl]
  have he : p.search_results.length + p.selected - 1 =
      p.selected + (p.search_results.length - 1) := by omega
  rw [he]

theorem down_needs_redraw_of_ne (p : Picker T) (h : p.search_results ≠ []) :
    p.down.needs_redraw = true := by
  unfold Picker.down
  rw [if_neg (by simp [isEmpty_false_of_ne_nil h])]

theorem up_needs_redraw_of_ne (p : Picker T) (h : p.search_results ≠ []) :
    p.up.needs_redraw = true := by
  unfold Picker.up
  rw [if_neg (by simp [isEmpty_false_of_ne_nil h])]

theorem down_iterate (p : Picker T) (k : Nat) (h : p.search_results ≠ [])
    (hs : p.selected < p.search_results.length) :
    (Picker.down^[k] p).search_results = p.search_results ∧
    (Picker.down^[k] p).selected =
      (p.selected + k) % p.search_results.length := by
  induction k with
  | zero => simp [Nat.mod_eq_of_lt hs]
  | succ k ih =>
    obtain ⟨hr, hsel⟩ := ih
    rw [Function.iterate_succ_apply']
    refine ⟨by rw [down_search_results, hr], ?_⟩
    rw [down_selected_of_ne _ (by rw [hr]; exact h), hr, hsel,
      Nat.mod_add_mod, ← Nat.add_assoc]

theorem up_iterate (p : Picker T) (k : Nat) (h : p.search_results ≠ [])
    (hs : p.selected < p.search_results.length) :
    (Picker.up^[k] p).search_results = p.search_results ∧
    (Picker.up^[k] p).selected =
      (p.selected + k * (p.search_results.length - 1)) %
        p.search_results.length := by
  induction k with
  | zero => simp [Nat.mod_eq_of_lt hs]
  | succ k ih =>
    obtain ⟨hr, hsel⟩ := ih
    rw [Function.iterate_succ_apply']
    refine ⟨by rw [up_search_results, hr], ?_⟩
    rw [up_selected_of_ne _ (by rw [hr]; exact h), hr, hsel,
      Nat.mod_add_mod, Nat.succ_mul, ← Nat.add_assoc]

/-! ## Claim theorems -/

/-- C6: with `N ≥ 1` results and a valid selected index, `down()` applied
`N` times (and `up()` applied `N` times) returns the selection to its
starting value, and a single `down()`/`up()` moves the selection cyclically
by one modulo `N` (`up` adds `N - 1`, i.e. subtracts one modulo `N`). -/
theorem down_up_cyclic (p : Picker T)
    (h1 : 1 ≤ p.search_results.length)
    (h2 : p.selected < p.search_results.length) :
    (Picker.down^[p.search_results.length] p).selected = p.selected ∧
    (Picker.up^[p.search_results.length] p).selected = p.selected ∧
    p.down.selected = (p.selected + 1) % p.search_results.length ∧
    p.up.selected = (p.selected + (p.search_results.length - 1)) %
      p.search_results.length := by
  have hne : p.search_results ≠ [] := by
    intro hnil
    rw [hnil] at h1
    simp at h1
  refine ⟨?_, ?_, down_selected_of_ne p hne, up_selected_of_ne p hne⟩
  · rw [(down_iterate p _ hne h2).2, Nat.add_mod_right,
      Nat.mod_eq_of_lt h2]
  · rw [(up_iterate p _ hne h2).2, Nat.add_mul_mod_self_left,
      Nat.mod_eq_of_lt h2]

/-- Witness for C6 on a concrete picker with three results and the middle
one selected. -/
theorem down_up_cyclic_witness :
    (1 ≤ pickerABC.search_results.length ∧
      pickerABC.selected < pickerABC.search_results.length) ∧
    ((Picker.down^[pickerABC.search_results.length] pickerABC).selected =
        pickerABC.selected ∧
      (Picker.up^[pickerABC.search_results.length] pickerABC).selected =
        pickerABC.selected ∧
      pickerABC.down.selected =
        (pickerABC.selected + 1) % pickerABC.search_results.length ∧
      pickerABC.up.selected =
        (pickerABC.selected + (pickerABC.search_results.length - 1)) %
          pickerABC.search_results.length) :=
  ⟨⟨by decide, by decide⟩, down_up_cyclic pickerABC (by decide) (by decide)⟩

/-- C7: on an empty result list `down()` and `up()` leave the whole picker
state unchanged (hence never fault, and `needs_redraw` stays as it was);
on a non-empty result list each call sets `needs_redraw`. -/
theorem down_up_empty_noop (p : Picker T) :
    (p.search_results = [] → p.down = p ∧ p.up = p) ∧
    (p.search_results ≠ [] →
      p.down.needs_redraw = true ∧ p.up.needs_redraw = true) := by
  refine ⟨fun h => ?_, fun h =>
    ⟨down_needs_redraw_of_ne p h, up_needs_redraw_of_ne p h⟩⟩
  constructor
  · unfold Picker.down
    rw [if_pos (by simp [h])]
  · unfold Picker.up
    rw [if_pos (by simp [h])]

/-- Witness for C7: the empty default picker and the three-result
picker. -/
theorem down_up_empty_noop_witness :
    ((Picker.default Unit).search_results = [] ∧
      (Picker.default Unit).down = Picker.default Unit ∧
      (Picker.default Unit).up = Picker.default Unit) ∧
    (pickerABC.search_results ≠ [] ∧
      pickerABC.down.needs_redraw = true ∧
      pickerABC.up.needs_redraw = true) :=
  ⟨⟨rfl, (down_up_empty_noop (Picker.default Unit)).1 rfl⟩,
    ⟨by decide, (down_up_empty_noop pickerABC).2 (by decide)⟩⟩

/-- C10: when the previous selected index is not valid for the previous
result list (`get` returns `None`), a re-rank leaves `selected` untouched:
it is neither reset to `0` nor clamped to the new list. -/
theorem search_keeps_invalid_selected (oracle : Oracle) (p : Picker T)
    (h : p.search_results[p.selected]? = none) :
    (Picker.search oracle p).selected = p.selected := by
  unfold Picker.search
  simp [h]

/-- Witness for C10: `selected` was forced to `5` by `select(5)` while the
result list was empty; re-ranking two matching entries leaves it at `5`
(out of range for the new two-element list). -/
theorem search_keeps_invalid_selected_witness :
    pickerOutOfRange.search_results[pickerOutOfRange.selected]? = none ∧
    (Picker.search oracleAll pickerOutOfRange).selected = 5 ∧
    (Picker.search oracleAll pickerOutOfRange).search_results.length = 2 :=
  ⟨by decide,
    search_keeps_invalid_selected oracleAll pickerOutOfRange (by decide),
    by decide⟩

/-- C1 (amended): handling an unmodified Enter key is characterized by the
unchecked read `search_results[selected]`: when `selected` is a valid
index the picker emits `Select` of the entry at that index with the state
unchanged; when it is not — in particular whenever `search_results` is
empty — the indexing panics, so Enter on an empty result list is a fault,
not a no-op. -/
theorem enter_key_spec (oracle : Oracle) (p : Picker T) :
    p.handle_key oracle (keyNoMod .Enter) =
      match p.search_results[p.selected]? with
      | some sr => .ok (p, some (.Select sr.entry))
      | none => .error "index out of bounds" := by
  unfold Picker.handle_key Picker.handle_global_key
  cases h : p.search_results[p.selected]? <;>
    simp [keyNoMod, KeyWithModifier.has_no_modifiers, Modifiers.empty, h]

/-- Counterexample to C1 as stated: on the default picker, whose result
list is empty, an unmodified Enter key press is not a no-op — it faults
with the index-out-of-bounds panic. -/
theorem enter_on_empty_faults :
    (Picker.default Unit).search_results = [] ∧
    (Picker.default Unit).handle_key oracleNone (keyNoMod .Enter) =
      .error "index out of bounds" :=
  ⟨rfl, rfl⟩

/-- C2 (amended): `render(0, cols)` is a no-op (the state — including
`needs_redraw` — is returned unchanged and nothing is shown);
`render(1, cols)` is NOT guarded: page size `rows - 1` is zero and the
page computation `selected / page_size` faults with a division-by-zero
panic; for `rows ≥ 2` render succeeds, clears `needs_redraw` and shows the
page of size `rows - 1` containing `selected`. -/
theorem render_spec (p : Picker T) (rows cols : Nat) :
    (rows = 0 → p.render rows cols = .ok (p, [], 0)) ∧
    (rows = 1 → p.render rows cols = .error "attempt to divide by zero") ∧
    (2 ≤ rows →
      p.render rows cols =
        .ok ({ p with needs_redraw := false },
          (p.search_results.drop
            ((p.selected / (rows - 1)) * (rows - 1))).take (rows - 1),
          p.selected % (rows - 1))) := by
  refine ⟨fun h => ?_, fun h => ?_, fun h => ?_⟩
  · subst h
    rfl
  · subst h
    rfl
  · unfold Picker.render
    rw [if_neg (by omega), if_neg (by omega)]

/-- Counterexample to C2 as stated: rendering the default picker into a
one-row frame faults (division by zero) instead of degenerating to zero
visible rows. -/
theorem render_one_row_faults :
    (Picker.default Unit).render 1 80 =
      .error "attempt to divide by zero" :=
  rfl

/-- Witness for C2 (amended) at rows 0, 1 and 2. -/
theorem render_spec_witness :
    (pickerABC.render 0 80 = .ok (pickerABC, [], 0)) ∧
    (pickerABC.render 1 80 = .error "attempt to divide by zero") ∧
    (pickerABC.render 2 80 =
      .ok ({ pickerABC with needs_redraw := false },
        (pickerABC.search_results.drop
          ((pickerABC.selected / (2 - 1)) * (2 - 1))).take (2 - 1),
        pickerABC.selected % (2 - 1))) :=
  ⟨(render_spec pickerABC 0 80).1 rfl, (render_spec pickerABC 1 80).2.1 rfl,
    (render_spec pickerABC 2 80).2.2 (by decide)⟩

/-- C8: in Normal mode an unmodified digit `c ∈ '1'..'8'` emits `Select`
of the result at index `digit - 1` if it exists and no response (state
unchanged, no fault) otherwise; unmodified `'9'` emits `Select` of the
last result, or no response on an empty list. Stated through the full
`handle_key` dispatch, so it also shows the global handler passes digit
keys through untouched. -/
theorem normal_digit_keys (oracle : Oracle) (p : Picker T) (c : Char)
    (hmode : p.input_mode = .Normal) :
    ('1' ≤ c → c ≤ '8' →
      p.handle_key oracle (keyNoMod (.Char c)) =
        .ok (p, (p.search_results[c.toNat - Char.toNat '1']?).map
          (fun sr => .Select sr.entry))) ∧
    (p.handle_key oracle (keyNoMod (.Char '9')) =
      .ok (p, p.search_results.getLast?.map
        (fun sr => .Select sr.entry))) := by
  constructor
  · intro h1 h2
    have hj : c ≠ 'j' := by
      intro he
      subst he
      exact absurd h2 (by decide)
    have hk : c ≠ 'k' := by
      intro he
      subst he
      exact absurd h2 (by decide)
    simp [Picker.handle_key, Picker.handle_global_key,
      Picker.handle_normal_key, keyNoMod, KeyWithModifier.has_no_modifiers,
      KeyWithModifier.hasCtrl, Modifiers.empty, hmode, hj, hk, h1, h2]
  · have h98 : ¬(('1' : Char) ≤ '9' ∧ ('9' : Char) ≤ '8') := by decide
    simp [Picker.handle_key, Picker.handle_global_key,
      Picker.handle_normal_key, keyNoMod, KeyWithModifier.has_no_modifiers,
      KeyWithModifier.hasCtrl, Modifiers.empty, hmode, h98]

/-- Witness for C8: on a three-result picker, `'2'` selects the second
entry, `'9'` selects the last entry (`c`, not a ninth), and `'5'` is a
no-op because index 4 does not exist. -/
theorem normal_digit_keys_witness :
    (pickerABC.handle_key oracleAll (keyNoMod (.Char '2')) =
      .ok (pickerABC, some (.Select entryB))) ∧
    (pickerABC.handle_key oracleAll (keyNoMod (.Char '9')) =
      .ok (pickerABC, some (.Select entryC))) ∧
    (pickerABC.handle_key oracleAll (keyNoMod (.Char '5')) =
      .ok (pickerABC, none)) :=
  ⟨(normal_digit_keys oracleAll pickerABC '2' rfl).1 (by decide) (by decide),
    (normal_digit_keys oracleAll pickerABC '9' rfl).2,
    (normal_digit_keys oracleAll pickerABC '5' rfl).1 (by decide)
      (by decide)⟩

/-! ## Comparator lemmas (for C5) -/

theorem then_eq_lt (o o' : Ordering) :
    o.then o' = .lt ↔ o = .lt ∨ (o = .eq ∧ o' = .lt) := by
  cases o <;> simp [Ordering.then]

theorem then_eq_eq (o o' : Ordering) :
    o.then o' = .eq ↔ o = .eq ∧ o' = .eq := by
  cases o <;> simp [Ordering.then]

theorem swap_eq_eq (o : Ordering) : o.swap = .eq ↔ o = .eq := by
  cases o <;> simp [Ordering.swap]

theorem charEq_of_toNat_eq {a b : Char} (h : a.toNat = b.toNat) : a = b :=
  Char.eq_of_val_eq (UInt32.ext h)

theorem charListCmp_eq_eq :
    ∀ {as bs : List Char}, charListCmp as bs = .eq → as = bs
  | [], [], _ => rfl
  | [], _ :: _, h => by simp [charListCmp] at h
  | _ :: _, [], h => by simp [charListCmp] at h
  | a :: as, b :: bs, h => by
    rw [charListCmp, then_eq_eq] at h
    obtain ⟨h1, h2⟩ := h
    rw [Nat.compare_eq_eq] at h1
    rw [charEq_of_toNat_eq h1, charListCmp_eq_eq h2]

theorem charListCmp_lt_of_lex {as bs : List Char}
    (h : List.Lex (· < ·) as bs) : charListCmp as bs = .lt := by
  induction h with
  | nil => rfl
  | @cons a as bs _ ih =>
    rw [charListCmp, Nat.compare_eq_eq.mpr rfl]
    exact ih
  | @rel a as b bs hab =>
    have h2 : a.toNat < b.toNat := hab
    rw [charListCmp, Nat.compare_eq_lt.mpr h2]
    rfl

theorem strCmp_eq_eq {a b : String} (h : strCmp a b = .eq) : a = b := by
  have hd := charListCmp_eq_eq h
  cases a
  cases b
  exact congrArg String.mk hd

/-! ## `findFirstIdx` lemmas (for C3) -/

theorem findFirstIdx_eq_none {α : Type} (pred : α → Bool) :
    ∀ {l : List α}, (∀ x ∈ l, pred x = false) → findFirstIdx pred l = none
  | [], _ => rfl
  | x :: xs, h => by
    have hx := h x (List.mem_cons_self x xs)
    rw [findFirstIdx, if_neg (by simp [hx]),
      findFirstIdx_eq_none pred (fun y hy => h y (List.mem_cons_of_mem x hy))]
    rfl

theorem findFirstIdx_spec {α : Type} (pred : α → Bool) :
    ∀ {l : List α} {i : Nat}, findFirstIdx pred l = some i →
      ∃ x, l[i]? = some x ∧ pred x = true
  | [], _, h => by simp [findFirstIdx] at h
  | x :: xs, i, h => by
    rw [findFirstIdx] at h
    cases hpx : pred x with
    | true =>
      rw [if_pos (by simp [hpx])] at h
      obtain rfl : (0 : Nat) = i := Option.some.inj h
      exact ⟨x, by simp, hpx⟩
    | false =>
      rw [if_neg (by simp [hpx])] at h
      cases hfx : findFirstIdx pred xs with
      | none =>
        rw [hfx] at h
        simp at h
      | some k =>
        rw [hfx] at h
        rw [show (some k).map (· + 1) = some (k + 1) from rfl] at h
        obtain rfl : k + 1 = i := Option.some.inj h
        obtain ⟨y, hy, hpy⟩ := findFirstIdx_spec pred hfx
        exact ⟨y, by simpa using hy, hpy⟩

theorem findFirstIdx_le {α : Type} (pred : α → Bool) :
    ∀ {l : List α} {j : Nat} {y : α}, l[j]? = some y → pred y = true →
      ∃ i, findFirstIdx pred l = some i ∧ i ≤ j
  | [], j, y, h, _ => by simp at h
  | x :: xs, j, y, h, hp => by
    cases hpx : pred x with
    | true =>
      exact ⟨0, by rw [findFirstIdx, if_pos (by simp [hpx])], Nat.zero_le j⟩
    | false =>
      cases j with
      | zero =>
        rw [List.getElem?_cons_zero] at h
        obtain rfl : x = y := Option.some.inj h
        rw [hpx] at hp
        exact absurd hp (by simp)
      | succ j' =>
        have h' : xs[j']? = some y := by simpa using h
        obtain ⟨i, hi, hij⟩ := findFirstIdx_le pred h' hp
        refine ⟨i + 1, ?_, by omega⟩
        rw [findFirstIdx, if_neg (by simp [hpx]), hi]
        rfl

/-- When the previous selected index is valid, the selection after a
re-rank is the first index of the new list whose entry string equals the
previously selected entry's string, defaulting to `0`. -/
theorem search_selected_of_valid (oracle : Oracle) (p : Picker T)
    {sr : SearchResult T} (h : p.search_results[p.selected]? = some sr) :
    (Picker.search oracle p).selected =
      (findFirstIdx (fun r => r.entry.string == sr.entry.string)
        (Picker.search oracle p).search_results).getD 0 := by
  unfold Picker.search
  simp [h]

/-- C5: the `SearchResult` comparator orders by score descending; on a
score tie, by the position of the earliest matched character ascending;
on a further tie, by entry string lexicographically ascending (character
order on the UTF-8 text); and it returns `Equal` only when the two entry
strings are identical — so it never reports two distinct-string results as
equal. -/
theorem comparator_spec (a b : SearchResult T) :
    (b.score < a.score → SearchResult.cmp a b = .lt) ∧
    (a.score = b.score →
      (∀ i j, a.indices.head? = some i → b.indices.head? = some j →
        i < j → SearchResult.cmp a b = .lt) ∧
      (a.indices.head? = b.indices.head? →
        List.Lex (· < ·) a.entry.string.data b.entry.string.data →
        SearchResult.cmp a b = .lt)) ∧
    (SearchResult.cmp a b = .eq → a.entry.string = b.entry.string) := by
  refine ⟨fun h => ?_, fun hsc => ⟨fun i j hi hj hij => ?_, fun hh hlex => ?_⟩,
    fun heq => ?_⟩
  · rw [SearchResult.cmp, Nat.compare_eq_gt.mpr h]
    rfl
  · rw [SearchResult.cmp, Nat.compare_eq_eq.mpr hsc, hi, hj]
    show ((Ordering.eq.swap.then (compare i j)).then _) = _
    rw [Nat.compare_eq_lt.mpr hij]
    rfl
  · rw [SearchResult.cmp, Nat.compare_eq_eq.mpr hsc, hh]
    have hself : cmpOptNat b.indices.head? b.indices.head? = .eq := by
      cases b.indices.head? with
      | none => rfl
      | some i => exact Nat.compare_eq_eq.mpr rfl
    rw [hself]
    show strCmp a.entry.string b.entry.string = .lt
    exact charListCmp_lt_of_lex hlex
  · rw [SearchResult.cmp, then_eq_eq, then_eq_eq] at heq
    exact strCmp_eq_eq heq.2

/-- Witness for C5 on concrete results: higher score wins, earlier first
matched position wins on a score tie, and the string breaks full ties. -/
theorem comparator_spec_witness :
    (SearchResult.cmp (T := Unit) ⟨⟨"x", ()⟩, 7, [4]⟩ ⟨⟨"y", ()⟩, 3, [0]⟩ =
      .lt) ∧
    (SearchResult.cmp (T := Unit) ⟨⟨"x", ()⟩, 3, [1]⟩ ⟨⟨"y", ()⟩, 3, [2]⟩ =
      .lt) ∧
    (SearchResult.cmp (T := Unit) ⟨⟨"ab", ()⟩, 3, [1]⟩ ⟨⟨"b", ()⟩, 3, [1]⟩ =
      .lt) ∧
    ((⟨⟨"ab", ()⟩, 3, [1]⟩ : SearchResult Unit).entry.string = "ab") :=
  ⟨(comparator_spec ⟨⟨"x", ()⟩, 7, [4]⟩ ⟨⟨"y", ()⟩, 3, [0]⟩).1 (by decide),
    ((comparator_spec ⟨⟨"x", ()⟩, 3, [1]⟩ ⟨⟨"y", ()⟩, 3, [2]⟩).2.1
      rfl).1 1 2 rfl rfl (by decide),
    ((comparator_spec ⟨⟨"ab", ()⟩, 3, [1]⟩ ⟨⟨"b", ()⟩, 3, [1]⟩).2.1
      rfl).2 rfl (List.Lex.rel (by decide)),
    rfl⟩

/-- C3 (amended): the reconciliation rule — select the first result whose
string equals the previously selected entry's string, else reset to `0`,
provided the previous selected index was valid — holds for the re-rank
itself (`search`), hence for the list-replace operations `clear`/`extend`
which delegate to it; but a re-rank triggered by a query edit (character
append, Ctrl+U, Backspace) always resets the selection to `0` afterwards,
overriding the reconciliation. -/
theorem rerank_reconciliation (oracle : Oracle) (p : Picker T) (c : Char)
    (es : List (Entry T)) :
    (∀ sr, p.search_results[p.selected]? = some sr →
      ((∀ srj ∈ (Picker.search oracle p).search_results,
          srj.entry.string ≠ sr.entry.string) →
        (Picker.search oracle p).selected = 0) ∧
      (∀ j srj, (Picker.search oracle p).search_results[j]? = some srj →
        srj.entry.string = sr.entry.string →
        (Picker.search oracle p).selected ≤ j ∧
        ((Picker.search oracle p).search_results[
            (Picker.search oracle p).selected]?).map
          (fun srk => srk.entry.string) = some sr.entry.string)) ∧
    (p.clear oracle = Picker.search oracle { p with all_entries := [] } ∧
      p.extend oracle es =
        Picker.search oracle
          { p with all_entries := p.all_entries ++ es }) ∧
    ((p.handle_search_key oracle (keyNoMod (.Char c))).1.selected = 0 ∧
      (p.handle_search_key oracle (keyCtrl (.Char 'u'))).1.selected = 0 ∧
      (p.handle_search_key oracle (keyNoMod .Backspace)).1.selected = 0) := by
  refine ⟨fun sr hsr => ⟨fun hnone => ?_, fun j srj hj hstr => ?_⟩,
    ⟨rfl, rfl⟩, ?_, ?_, ?_⟩
  · rw [search_selected_of_valid oracle p hsr,
      findFirstIdx_eq_none _ (fun x hx => by
        simp [beq_eq_false_iff_ne]
        exact hnone x hx)]
    rfl
  · have hpred : (srj.entry.string == sr.entry.string) = true := by
      simp [hstr]
    obtain ⟨i, hi, hij⟩ :=
      findFirstIdx_le (fun r : SearchResult T =>
        r.entry.string == sr.entry.string) hj hpred
    have hsel := search_selected_of_valid oracle p hsr
    rw [hi] at hsel
    simp only [Option.getD_some] at hsel
    refine ⟨by rw [hsel]; exact hij, ?_⟩
    obtain ⟨x, hx, hpx⟩ :=
      findFirstIdx_spec (fun r : SearchResult T =>
        r.entry.string == sr.entry.string) hi
    rw [hsel, hx]
    simp only [Option.map]
    simp at hpx
    rw [hpx]
  · simp [Picker.handle_search_key, keyNoMod,
      KeyWithModifier.has_no_modifiers, Modifiers.empty]
  · simp [Picker.handle_search_key, keyCtrl, KeyWithModifier.hasCtrl,
      KeyWithModifier.has_no_modifiers, Modifiers.empty]
  · simp [Picker.handle_search_key, keyNoMod,
      KeyWithModifier.has_no_modifiers, Modifiers.empty]

/-- Counterexample to C3 as stated: in Search mode with results
`a`, `b`, `c` and `b` selected, appending the character `x` to the query
(oracle still matches all three, same order) leaves `b` present at index
1 of the new result list, yet the selection ends at `0`, not at `b`'s new
index — the query-edit handler resets it after reconciliation ran. -/
theorem query_edit_resets_selection :
    pickerABCSearch.selected = 1 ∧
    (pickerABCSearch.search_results[1]?).map
      (fun sr => sr.entry.string) = some "b" ∧
    (pickerABCSearch.handle_key oracleAll
        (keyNoMod (.Char 'x'))).toOption.map
      (fun pr => (pr.1.search_results.map (fun sr => sr.entry.string),
        pr.1.selected, pr.2)) =
      some (["a", "b", "c"], 0, none) := by
  refine ⟨rfl, rfl, ?_⟩
  decide

/-- Witness for C3 (amended): on `pickerABC` (valid selected index 1,
entry `b`) a plain re-rank keeps the selection at a result whose string is
`b` with index at most 1, while a query edit on the same state in Search
mode resets the selection to `0`. -/
theorem rerank_reconciliation_witness :
    ((Picker.search oracleAll pickerABC).selected ≤ 1 ∧
      ((Picker.search oracleAll pickerABC).search_results[
          (Picker.search oracleAll pickerABC).selected]?).map
        (fun srk => srk.entry.string) = some "b") ∧
    (pickerABCSearch.handle_search_key oracleAll
        (keyNoMod (.Char 'x'))).1.selected = 0 :=
  ⟨((rerank_reconciliation oracleAll pickerABC 'x' []).1 (srOf entryB)
      rfl).2 1 (srOf entryB) (by decide) rfl,
    (rerank_reconciliation oracleAll pickerABCSearch 'x' []).2.2.1⟩

/-! ## `load` lemmas (for C9) -/

theorem loadCaseMatching_isErr (v : Option String) (p : Picker T) :
    isErr (loadCaseMatching v p) = badValue v validCaseValue := by
  cases v with
  | none => rfl
  | some s =>
    by_cases e1 : s = "respect"
    · simp [loadCaseMatching, badValue, validCaseValue, isErr, e1]
    · by_cases e2 : s = "ignore"
      · simp [loadCaseMatching, badValue, validCaseValue, isErr, e1, e2]
      · by_cases e3 : s = "smart"
        · simp [loadCaseMatching, badValue, validCaseValue, isErr, e1, e2,
            e3]
        · simp [loadCaseMatching, badValue, validCaseValue, isErr, e1, e2,
            e3]

theorem loadMatchPaths_isErr (v : Option String) (p : Picker T) :
    isErr (loadMatchPaths v p) = badValue v validBoolValue := by
  cases v with
  | none => rfl
  | some s =>
    by_cases e1 : s = "true"
    · simp [loadMatchPaths, badValue, validBoolValue, isErr, e1]
    · by_cases e2 : s = "false"
      · simp [loadMatchPaths, badValue, validBoolValue, isErr, e1, e2]
      · simp [loadMatchPaths, badValue, validBoolValue, isErr, e1, e2]

theorem loadStartInSearchMode_isErr (v : Option String) (p : Picker T) :
    isErr (loadStartInSearchMode v p) = badValue v validBoolValue := by
  cases v with
  | none => rfl
  | some s =>
    by_cases e1 : s = "true"
    · simp [loadStartInSearchMode, badValue, validBoolValue, isErr, e1]
    · by_cases e2 : s = "false"
      · simp [loadStartInSearchMode, badValue, validBoolValue, isErr, e1,
          e2]
      · simp [loadStartInSearchMode, badValue, validBoolValue, isErr, e1,
          e2]

/-- C9: loading is fatal exactly when a recognized key (case matching,
match paths, start-in-search-mode) is present with a value outside its
accepted set (`respect`/`ignore`/`smart`, resp. `true`/`false`); the
result of `load` depends only on the three recognized keys, so entries
under any other key are ignored; and with all three keys absent the
default picker is left at its defaults: smart case matching, paths off,
Normal mode. -/
theorem load_spec (cfg : Config) (p : Picker T) :
    (isErr (p.load cfg) =
      (badValue (cfg.get "nucleo_case_matching") validCaseValue ||
        badValue (cfg.get "nucleo_match_paths") validBoolValue ||
        badValue (cfg.get "nucleo_start_in_search_mode") validBoolValue)) ∧
    (∀ cfg2 : Config,
      cfg.get "nucleo_case_matching" = cfg2.get "nucleo_case_matching" →
      cfg.get "nucleo_match_paths" = cfg2.get "nucleo_match_paths" →
      cfg.get "nucleo_start_in_search_mode" =
        cfg2.get "nucleo_start_in_search_mode" →
      p.load cfg = p.load cfg2) ∧
    (cfg.get "nucleo_case_matching" = none →
      cfg.get "nucleo_match_paths" = none →
      cfg.get "nucleo_start_in_search_mode" = none →
      (Picker.default T).load cfg = .ok (Picker.default T)) ∧
    ((Picker.default T).case_matching = .Smart ∧
      (Picker.default T).match_paths = false ∧
      (Picker.default T).input_mode = .Normal) := by
  refine ⟨?_, fun cfg2 h1 h2 h3 => ?_, fun h1 h2 h3 => ?_, rfl, rfl, rfl⟩
  · unfold Picker.load
    cases hr1 : loadCaseMatching (cfg.get "nucleo_case_matching") p with
    | error e =>
      have hb1 : badValue (cfg.get "nucleo_case_matching") validCaseValue =
          true := by
        rw [← loadCaseMatching_isErr (cfg.get "nucleo_case_matching") p,
          hr1]
        rfl
      simp [hb1, isErr]
    | ok p1 =>
      have hb1 : badValue (cfg.get "nucleo_case_matching") validCaseValue =
          false := by
        rw [← loadCaseMatching_isErr (cfg.get "nucleo_case_matching") p,
          hr1]
        rfl
      cases hr2 : loadMatchPaths (cfg.get "nucleo_match_paths") p1 with
      | error e =>
        have hb2 : badValue (cfg.get "nucleo_match_paths") validBoolValue =
            true := by
          rw [← loadMatchPaths_isErr (cfg.get "nucleo_match_paths") p1, hr2]
          rfl
        simp [hr2, hb1, hb2, isErr]
      | ok p2 =>
        have hb2 : badValue (cfg.get "nucleo_match_paths") validBoolValue =
            false := by
          rw [← loadMatchPaths_isErr (cfg.get "nucleo_match_paths") p1, hr2]
          rfl
        simp [hr2, hb1, hb2, loadStartInSearchMode_isErr]
  · unfold Picker.load
    rw [h1, h2, h3]
  · unfold Picker.load
    rw [h1, h2, h3]
    rfl

/-- Witness for C9: a recognized key with a bogus value is fatal; a
configuration holding only an unrecognized key loads like the empty
configuration and leaves the defaults. -/
theorem load_spec_witness :
    (isErr ((Picker.default Unit).load
      [("nucleo_case_matching", "bogus")]) = true) ∧
    ((Picker.default Unit).load [("unrelated_key", "x")] =
      (Picker.default Unit).load []) ∧
    ((Picker.default Unit).load [("unrelated_key", "x")] =
      .ok (Picker.default Unit)) :=
  ⟨(load_spec [("nucleo_case_matching", "bogus")] (Picker.default Unit)).1,
    (load_spec [("unrelated_key", "x")] (Picker.default Unit)).2.1 [] rfl
      rfl rfl,
    (load_spec [("unrelated_key", "x")] (Picker.default Unit)).2.2.1 rfl
      rfl rfl⟩

/-! ## Redraw-flag lemmas (for C4) -/

theorem search_needs_redraw (oracle : Oracle) (p : Picker T) :
    (Picker.search oracle p).needs_redraw = true :=
  rfl

theorem down_redraw_mono (p : Picker T) (h : p.needs_redraw = true) :
    p.down.needs_redraw = true := by
  unfold Picker.down
  split
  · exact h
  · rfl

theorem up_redraw_mono (p : Picker T) (h : p.needs_redraw = true) :
    p.up.needs_redraw = true := by
  unfold Picker.up
  split
  · exact h
  · rfl

theorem normal_key_redraw_mono (p : Picker T) (key : KeyWithModifier)
    (h : p.needs_redraw = true) :
    (p.handle_normal_key key).1.needs_redraw = true := by
  obtain ⟨bk, m⟩ := key
  cases bk <;> simp only [Picker.handle_normal_key] <;> try exact h
  split_ifs <;>
    first
      | exact down_redraw_mono p h
      | exact up_redraw_mono p h
      | exact h
      | rfl

theorem search_key_redraw_mono (oracle : Oracle) (p : Picker T)
    (key : KeyWithModifier) (h : p.needs_redraw = true) :
    (p.handle_search_key oracle key).1.needs_redraw = true := by
  obtain ⟨bk, m⟩ := key
  cases bk <;> simp only [Picker.handle_search_key] <;> try exact h
  · split_ifs <;> first | rfl | exact h
  · split_ifs <;> first | rfl | exact h

theorem global_key_redraw_mono (p : Picker T) (key : KeyWithModifier)
    (p1 : Picker T) (r : Option (Response T)) (h : p.needs_redraw = true)
    (hk : p.handle_global_key key = .ok (p1, r)) :
    p1.needs_redraw = true := by
  obtain ⟨bk, m⟩ := key
  cases bk <;> simp only [Picker.handle_global_key] at hk <;>
    try split_ifs at hk
  all_goals try split at hk
  all_goals
    first
      | (simp only [Except.ok.injEq, Prod.mk.injEq] at hk
         obtain ⟨h1, h2⟩ := hk
         subst h1
         first
           | exact down_redraw_mono p h
           | exact up_redraw_mono p h
           | exact h
           | rfl)
      | simp at hk

theorem handle_key_redraw_mono (oracle : Oracle) (p : Picker T)
    (key : KeyWithModifier) (p1 : Picker T) (r : Option (Response T))
    (h : p.needs_redraw = true)
    (hk : p.handle_key oracle key = .ok (p1, r)) :
    p1.needs_redraw = true := by
  obtain ⟨bk, m⟩ := key
  unfold Picker.handle_key at hk
  cases hg : p.handle_global_key (⟨bk, m⟩ : KeyWithModifier) with
  | error e =>
    rw [hg] at hk
    simp at hk
  | ok qr =>
    obtain ⟨q, r2⟩ := qr
    rw [hg] at hk
    have hq : q.needs_redraw = true :=
      global_key_redraw_mono p ⟨bk, m⟩ q r2 h hg
    cases r2 with
    | some resp =>
      simp only [Except.ok.injEq, Prod.mk.injEq] at hk
      obtain ⟨h1, _⟩ := hk
      subst h1
      exact hq
    | none =>
      dsimp only at hk
      cases hm : q.input_mode <;> rw [hm] at hk <;> dsimp only at hk
      · have h1 : q.handle_normal_key ⟨bk, m⟩ = (p1, r) := Except.ok.inj hk
        have h2 := congrArg Prod.fst h1
        dsimp only at h2
        rw [← h2]
        exact normal_key_redraw_mono q ⟨bk, m⟩ hq
      · have h1 : Picker.handle_search_key oracle q ⟨bk, m⟩ = (p1, r) :=
          Except.ok.inj hk
        have h2 := congrArg Prod.fst h1
        dsimp only at h2
        rw [← h2]
        exact search_key_redraw_mono oracle q ⟨bk, m⟩ hq

theorem loadCaseMatching_redraw (v : Option String) (p q : Picker T)
    (h : loadCaseMatching v p = .ok q) :
    q.needs_redraw = p.needs_redraw := by
  cases v with
  | none =>
    simp only [loadCaseMatching, Except.ok.injEq] at h
    rw [← h]
  | some s =>
    simp only [loadCaseMatching] at h
    split_ifs at h <;> simp only [Except.ok.injEq] at h <;> rw [← h]

theorem loadMatchPaths_redraw (v : Option String) (p q : Picker T)
    (h : loadMatchPaths v p = .ok q) :
    q.needs_redraw = p.needs_redraw := by
  cases v with
  | none =>
    simp only [loadMatchPaths, Except.ok.injEq] at h
    rw [← h]
  | some s =>
    simp only [loadMatchPaths] at h
    split_ifs at h <;> simp only [Except.ok.injEq] at h <;> rw [← h] <;>
      simp [Picker.set_match_paths, Picker.clear_match_paths]

theorem loadStartInSearchMode_redraw (v : Option String) (p q : Picker T)
    (h : loadStartInSearchMode v p = .ok q) :
    q.needs_redraw = p.needs_redraw := by
  cases v with
  | none =>
    simp only [loadStartInSearchMode, Except.ok.injEq] at h
    rw [← h]
  | some s =>
    simp only [loadStartInSearchMode] at h
    split_ifs at h <;> simp only [Except.ok.injEq] at h <;> rw [← h] <;>
      simp [Picker.enter_search_mode, Picker.enter_normal_mode]

theorem load_redraw (cfg : Config) (p q : Picker T)
    (h : p.load cfg = .ok q) : q.needs_redraw = p.needs_redraw := by
  unfold Picker.load at h
  cases h1 : loadCaseMatching (cfg.get "nucleo_case_matching") p with
  | error e =>
    rw [h1] at h
    simp at h
  | ok p1 =>
    rw [h1] at h
    dsimp only at h
    cases h2 : loadMatchPaths (cfg.get "nucleo_match_paths") p1 with
    | error e =>
      rw [h2] at h
      simp at h
    | ok p2 =>
      rw [h2] at h
      dsimp only at h
      rw [loadStartInSearchMode_redraw _ p2 q h,
        loadMatchPaths_redraw _ p1 p2 h2,
        loadCaseMatching_redraw _ p p1 h1]

/-- C4 (amended): every query edit, every mode change performed through
the `/` and Esc keys, every selection move on a non-empty result list
(including `select`), and every list replace through `clear`/`extend`
sets `needs_redraw`; no key event, `load`, or other public operation ever
clears it, and `render` (with at least two rows) clears it — but the
public `enter_search_mode`/`enter_normal_mode` functions change the mode
WITHOUT setting `needs_redraw`, contrary to the claim. -/
theorem needs_redraw_policy (oracle : Oracle) (p : Picker T) (c : Char)
    (es : List (Entry T)) (idx : Nat) (key : KeyWithModifier)
    (rows cols : Nat) :
    ((p.handle_search_key oracle (keyNoMod (.Char c))).1.needs_redraw =
        true ∧
      (p.handle_search_key oracle (keyCtrl (.Char 'u'))).1.needs_redraw =
        true ∧
      (p.handle_search_key oracle (keyNoMod .Backspace)).1.needs_redraw =
        true) ∧
    ((p.input_mode = .Normal →
        p.handle_key oracle (keyNoMod (.Char '/')) =
          .ok ({ p with input_mode := .Search, needs_redraw := true },
            none)) ∧
      p.handle_key oracle (keyNoMod .Esc) =
        .ok ({ p with input_mode := .Normal, needs_redraw := true },
          none)) ∧
    ((p.search_results ≠ [] →
        p.down.needs_redraw = true ∧ p.up.needs_redraw = true) ∧
      (p.select idx).needs_redraw = true) ∧
    ((p.clear oracle).needs_redraw = true ∧
      (p.extend oracle es).needs_redraw = true) ∧
    (p.enter_search_mode.needs_redraw = p.needs_redraw ∧
      p.enter_search_mode.input_mode = .Search ∧
      p.enter_normal_mode.needs_redraw = p.needs_redraw ∧
      p.enter_normal_mode.input_mode = .Normal) ∧
    ((p.needs_redraw = true → ∀ p1 r,
        p.handle_key oracle key = .ok (p1, r) → p1.needs_redraw = true) ∧
      (∀ cfg q, p.load cfg = .ok q → q.needs_redraw = p.needs_redraw) ∧
      (2 ≤ rows → ∀ q vis vsel,
        p.render rows cols = .ok (q, vis, vsel) →
        q.needs_redraw = false)) := by
  refine ⟨⟨rfl, rfl, rfl⟩, ⟨fun hmode => ?_, ?_⟩,
    ⟨fun h => ⟨down_needs_redraw_of_ne p h, up_needs_redraw_of_ne p h⟩,
      rfl⟩,
    ⟨search_needs_redraw oracle _, search_needs_redraw oracle _⟩,
    ⟨rfl, rfl, rfl, rfl⟩,
    ⟨fun h p1 r hk => handle_key_redraw_mono oracle p key p1 r h hk,
      fun cfg q hq => load_redraw cfg p q hq, fun hr q vis vsel hk => ?_⟩⟩
  · simp [Picker.handle_key, Picker.handle_global_key,
      Picker.handle_normal_key, keyNoMod, KeyWithModifier.has_no_modifiers,
      KeyWithModifier.hasCtrl, Modifiers.empty, hmode]
  · rfl
  · unfold Picker.render at hk
    rw [if_neg (by omega), if_neg (by omega)] at hk
    simp only [Except.ok.injEq, Prod.mk.injEq] at hk
    obtain ⟨h1, _⟩ := hk
    subst h1
    rfl

/-- Counterexample to C4 as stated: the public `enter_search_mode` is a
mode change (Normal to Search on the default picker) yet leaves
`needs_redraw` false. -/
theorem enter_search_mode_skips_redraw :
    (Picker.default Unit).input_mode = .Normal ∧
    (Picker.default Unit).enter_search_mode.input_mode = .Search ∧
    (Picker.default Unit).enter_search_mode.needs_redraw = false :=
  ⟨rfl, rfl, rfl⟩

/-- Witness for C4 (amended) on concrete pickers: a query edit and the
`/` key set the flag, `down` on a non-empty list sets it, a no-op key
preserves an already-set flag, and a two-row render clears it. -/
theorem needs_redraw_policy_witness :
    (pickerABC.handle_search_key oracleAll
        (keyNoMod (.Char 'q'))).1.needs_redraw = true ∧
    pickerABC.handle_key oracleAll (keyNoMod (.Char '/')) =
      .ok ({ pickerABC with input_mode := .Search, needs_redraw := true },
        none) ∧
    pickerABC.down.needs_redraw = true ∧
    pickerABCRedraw.needs_redraw = true ∧
    ({ pickerABCRedraw with needs_redraw := false } :
      Picker Unit).needs_redraw = false :=
  ⟨(needs_redraw_policy oracleAll pickerABC 'q' [] 0 (keyNoMod .other)
      2 80).1.1,
    (needs_redraw_policy oracleAll pickerABC 'q' [] 0 (keyNoMod .other)
      2 80).2.1.1 rfl,
    ((needs_redraw_policy oracleAll pickerABC 'q' [] 0 (keyNoMod .other)
      2 80).2.2.1.1 (by decide)).1,
    (needs_redraw_policy oracleAll pickerABCRedraw 'q' [] 0
      (keyNoMod .other) 2 80).2.2.2.2.2.1 rfl pickerABCRedraw none rfl,
    (needs_redraw_policy oracleAll pickerABCRedraw 'q' [] 0
      (keyNoMod .other) 2 80).2.2.2.2.2.2.2 (by decide)
      { pickerABCRedraw with needs_redraw := false } [srOf entryB] 0 rfl⟩

end ZellijNucleo
